import Mathlib

/-!
Shallow embedding of the Monkey-style interpreter front end
(`src/lexer.rs`, `src/ast.rs`, `src/parser.rs`, `src/object.rs`).

Source text is modelled as a `List Char` of ASCII bytes; the Rust `u8`
byte `0` is the character `Char.ofNat 0`.  Loops of the Rust code are
translated to fuel-indexed recursion; the lexer's internal loops are
always called with fuel `input.length + 2`, which is shown to be
sufficient, while the parser's loops keep the fuel as an explicit
parameter because the Rust parser does not terminate on some inputs.
Rust panics are modelled as `none` / a dedicated `panicked` outcome.
-/

namespace Monkey

/-- The Rust byte `0u8` used by the lexer as its end-of-input sentinel. -/
def nul : Char := Char.ofNat 0

/-- Kinds of token, from `src/token.rs`.
Modelled from the spec: `token.rs` itself is not under `src/`; the
variant list is fixed by §3 of the spec and by every use in
`src/lexer.rs` and `src/parser.rs`. -/
inductive TokenKind where
  | Eof
  | Illegal
  | Ident (s : String)
  | Int (i : Int)
  | String (s : String)
  | Let
  | Function
  | If
  | Else
  | Return
  | True
  | False
  | Assign
  | Plus
  | Minus
  | Asterisk
  | Slash
  | Bang
  | LessThan
  | GreaterThan
  | Equal
  | NotEqual
  | Comma
  | Colon
  | Semicolon
  | Lparen
  | Rparen
  | Lbracket
  | Rbracket
  | Lbrace
  | Rbrace
deriving DecidableEq

/-- Keyword table, `TokenKind::from_letters`.
Modelled from the spec: §3 fixes the keyword set
`let return fn if else true false`; unmatched runs become `Ident`.
(The lexer tests in `src/lexer.rs` exercise exactly this table.) -/
def fromLetters (s : String) : TokenKind :=
  if s = "let" then TokenKind.Let
  else if s = "fn" then TokenKind.Function
  else if s = "if" then TokenKind.If
  else if s = "else" then TokenKind.Else
  else if s = "return" then TokenKind.Return
  else if s = "true" then TokenKind.True
  else if s = "false" then TokenKind.False
  else TokenKind.Ident s

/-- `TokenKind::from_letters` under its source name (the parameter type
`String` must be resolved outside the `TokenKind` namespace, where the
`TokenKind.String` constructor shadows it). -/
def TokenKind.from_letters := fromLetters

/-- Display rendering of a token kind, used in parser error messages.
Modelled from the spec: `token.rs` is not under `src/`; operators render
as their lexeme (the parser tests compare `op.to_string()` with `"+"`,
`"=="` and so on). -/
def tokenDisplayString : TokenKind → String
  | TokenKind.Eof => "EOF"
  | TokenKind.Illegal => "ILLEGAL"
  | TokenKind.Ident s => s
  | TokenKind.Int i => toString i
  | TokenKind.String s => s
  | TokenKind.Let => "let"
  | TokenKind.Function => "fn"
  | TokenKind.If => "if"
  | TokenKind.Else => "else"
  | TokenKind.Return => "return"
  | TokenKind.True => "true"
  | TokenKind.False => "false"
  | TokenKind.Assign => "="
  | TokenKind.Plus => "+"
  | TokenKind.Minus => "-"
  | TokenKind.Asterisk => "*"
  | TokenKind.Slash => "/"
  | TokenKind.Bang => "!"
  | TokenKind.LessThan => "<"
  | TokenKind.GreaterThan => ">"
  | TokenKind.Equal => "=="
  | TokenKind.NotEqual => "!="
  | TokenKind.Comma => ","
  | TokenKind.Colon => ":"
  | TokenKind.Semicolon => ";"
  | TokenKind.Lparen => "("
  | TokenKind.Rparen => ")"
  | TokenKind.Lbracket => "["
  | TokenKind.Rbracket => "]"
  | TokenKind.Lbrace => "\x7b"
  | TokenKind.Rbrace => "\x7d"

/-- `derive(Debug)` rendering of a token kind, used in the `{:?}` parser
error messages.  Modelled from the spec: `token.rs` is not under `src/`;
this follows Rust's derived `Debug` format for a plain enum. -/
def tokenDebugString : TokenKind → String
  | TokenKind.Eof => "Eof"
  | TokenKind.Illegal => "Illegal"
  | TokenKind.Ident s => "Ident(\"" ++ s ++ "\")"
  | TokenKind.Int i => "Int(" ++ toString i ++ ")"
  | TokenKind.String s => "String(\"" ++ s ++ "\")"
  | TokenKind.Let => "Let"
  | TokenKind.Function => "Function"
  | TokenKind.If => "If"
  | TokenKind.Else => "Else"
  | TokenKind.Return => "Return"
  | TokenKind.True => "True"
  | TokenKind.False => "False"
  | TokenKind.Assign => "Assign"
  | TokenKind.Plus => "Plus"
  | TokenKind.Minus => "Minus"
  | TokenKind.Asterisk => "Asterisk"
  | TokenKind.Slash => "Slash"
  | TokenKind.Bang => "Bang"
  | TokenKind.LessThan => "LessThan"
  | TokenKind.GreaterThan => "GreaterThan"
  | TokenKind.Equal => "Equal"
  | TokenKind.NotEqual => "NotEqual"
  | TokenKind.Comma => "Comma"
  | TokenKind.Colon => "Colon"
  | TokenKind.Semicolon => "Semicolon"
  | TokenKind.Lparen => "Lparen"
  | TokenKind.Rparen => "Rparen"
  | TokenKind.Lbracket => "Lbracket"
  | TokenKind.Rbracket => "Rbracket"
  | TokenKind.Lbrace => "Lbrace"
  | TokenKind.Rbrace => "Rbrace"

/-- `Token`, from `src/token.rs` (a value wrapping its kind; the parser
only ever reads `.kind`). -/
structure Token where
  kind : TokenKind
deriving DecidableEq

/-- `Token::new`. -/
def Token.new (kind : TokenKind) : Token := { kind := kind }

/-- `Lexer` state, from `src/lexer.rs` lines 4-10.  `input` is the byte
string, `character` the byte at `position` (`0` past the end). -/
structure Lexer where
  input : List Char
  position : Nat
  read_position : Nat
  character : Char
deriving DecidableEq

/-- `is_letter` (`src/lexer.rs` lines 128-130): ASCII alphabetic or
underscore.  Digits are NOT letters. -/
def is_letter (character : Char) : Bool :=
  (('a' ≤ character && character ≤ 'z') || ('A' ≤ character && character ≤ 'Z'))
    || character = '_'

/-- `is_number` (`src/lexer.rs` lines 132-134): ASCII digit. -/
def is_number (character : Char) : Bool :=
  '0' ≤ character && character ≤ '9'

/-- `u8::is_ascii_whitespace`, used by `skip_whitespace`. -/
def isAsciiWhitespace (c : Char) : Bool :=
  c = ' ' || c = '\t' || c = '\n' || c = Char.ofNat 12 || c = '\r'

/-- `Lexer::read_char` (`src/lexer.rs` lines 24-32). -/
def Lexer.read_char (l : Lexer) : Lexer :=
  { l with
    character :=
      if l.input.length ≤ l.read_position then nul
      else l.input.getD l.read_position nul
    position := l.read_position
    read_position := l.read_position + 1 }

/-- `Lexer::new` (`src/lexer.rs` lines 13-22). -/
def Lexer.new (input : String) : Lexer :=
  Lexer.read_char
    { input := input.toList, position := 0, read_position := 0, character := nul }

/-- `Lexer::peek_char` (`src/lexer.rs` lines 34-39). -/
def Lexer.peek_char (l : Lexer) : Char :=
  if l.input.length ≤ l.read_position then nul
  else l.input.getD l.read_position nul

/-- The `while is_letter(self.character)` loop of `read_identifier`,
with explicit fuel (always called with enough fuel to finish). -/
def Lexer.readIdentLoop : Nat → Lexer → Lexer
  | 0, l => l
  | fuel + 1, l =>
    if is_letter l.character then Lexer.readIdentLoop fuel (Lexer.read_char l) else l

/-- `Lexer::read_identifier` (`src/lexer.rs` lines 41-47): consume the
maximal run of letters and return the slice `input[start..position]`. -/
def Lexer.read_identifier (l : Lexer) : String × Lexer :=
  let start := l.position
  let lEnd := Lexer.readIdentLoop (l.input.length + 2) l
  (String.mk ((l.input.drop start).take (lEnd.position - start)), lEnd)

/-- The `while is_number(self.character)` loop of `read_number`. -/
def Lexer.readNumLoop : Nat → Lexer → Lexer
  | 0, l => l
  | fuel + 1, l =>
    if is_number l.character then Lexer.readNumLoop fuel (Lexer.read_char l) else l

/-- Numeric value of a run of ASCII digits, as `str::parse` computes it. -/
def digitsVal (ds : List Char) : Nat :=
  ds.foldl (fun a c => a * 10 + (c.toNat - '0'.toNat)) 0

/-- `i64::MAX`, the largest value `parse::<i64>` accepts. -/
def i64Max : Nat := 9223372036854775807

/-- `Lexer::read_number` (`src/lexer.rs` lines 49-56): consume the
maximal digit run and `parse().unwrap()` it as an `i64`.  `none` models
the `unwrap` panic on an out-of-range literal. -/
def Lexer.read_number (l : Lexer) : Option (Int × Lexer) :=
  let start := l.position
  let lEnd := Lexer.readNumLoop (l.input.length + 2) l
  let v := digitsVal ((l.input.drop start).take (lEnd.position - start))
  if v ≤ i64Max then some ((v : Int), lEnd) else none

/-- The `loop { read_char; if character == quote or 0, break }` body of
the string-literal branch of `next_token`. -/
def Lexer.readStringLoop : Nat → Lexer → Lexer
  | 0, l => l
  | fuel + 1, l =>
    let l' := Lexer.read_char l
    if l'.character = '"' || l'.character = nul then l'
    else Lexer.readStringLoop fuel l'

/-- The `while character.is_ascii_whitespace()` loop of
`skip_whitespace`. -/
def Lexer.skipWsLoop : Nat → Lexer → Lexer
  | 0, l => l
  | fuel + 1, l =>
    if isAsciiWhitespace l.character then Lexer.skipWsLoop fuel (Lexer.read_char l) else l

/-- `Lexer::skip_whitespace` (`src/lexer.rs` lines 121-125). -/
def Lexer.skip_whitespace (l : Lexer) : Lexer :=
  Lexer.skipWsLoop (l.input.length + 2) l

/-- `Lexer::next_token` (`src/lexer.rs` lines 58-119).  The Rust `match`
on `self.character` becomes an `if` chain in source order.  Branches
that fall through the `match` end with a final `read_char`; the
identifier, number and illegal-byte arms `return` early without it.
`none` models the panic inside `read_number`. -/
def Lexer.next_token (l : Lexer) : Option (Token × Lexer) :=
  let l := Lexer.skip_whitespace l
  if l.character = nul then some (Token.new TokenKind.Eof, Lexer.read_char l)
  else if l.character = '+' then some (Token.new TokenKind.Plus, Lexer.read_char l)
  else if l.character = '-' then some (Token.new TokenKind.Minus, Lexer.read_char l)
  else if l.character = '*' then some (Token.new TokenKind.Asterisk, Lexer.read_char l)
  else if l.character = '/' then some (Token.new TokenKind.Slash, Lexer.read_char l)
  else if l.character = '<' then some (Token.new TokenKind.LessThan, Lexer.read_char l)
  else if l.character = '>' then some (Token.new TokenKind.GreaterThan, Lexer.read_char l)
  else if l.character = ',' then some (Token.new TokenKind.Comma, Lexer.read_char l)
  else if l.character = ':' then some (Token.new TokenKind.Colon, Lexer.read_char l)
  else if l.character = ';' then some (Token.new TokenKind.Semicolon, Lexer.read_char l)
  else if l.character = '(' then some (Token.new TokenKind.Lparen, Lexer.read_char l)
  else if l.character = ')' then some (Token.new TokenKind.Rparen, Lexer.read_char l)
  else if l.character = '[' then some (Token.new TokenKind.Lbracket, Lexer.read_char l)
  else if l.character = ']' then some (Token.new TokenKind.Rbracket, Lexer.read_char l)
  else if l.character = Char.ofNat 123 then some (Token.new TokenKind.Lbrace, Lexer.read_char l)
  else if l.character = Char.ofNat 125 then some (Token.new TokenKind.Rbrace, Lexer.read_char l)
  else if l.character = '=' then
    if Lexer.peek_char l = '=' then
      some (Token.new TokenKind.Equal, Lexer.read_char (Lexer.read_char l))
    else some (Token.new TokenKind.Assign, Lexer.read_char l)
  else if l.character = '!' then
    if Lexer.peek_char l = '=' then
      some (Token.new TokenKind.NotEqual, Lexer.read_char (Lexer.read_char l))
    else some (Token.new TokenKind.Bang, Lexer.read_char l)
  else if l.character = '"' then
    let start := l.position + 1
    let lEnd := Lexer.readStringLoop (l.input.length + 2) l
    some (Token.new (TokenKind.String (String.mk ((l.input.drop start).take (lEnd.position - start)))),
      Lexer.read_char lEnd)
  else if is_letter l.character then
    let r := Lexer.read_identifier l
    some (Token.new (TokenKind.from_letters r.1), r.2)
  else if is_number l.character then
    match Lexer.read_number l with
    | some nl => some (Token.new (TokenKind.Int nl.1), nl.2)
    | none => none
  else some (Token.new TokenKind.Illegal, l)

/-- The kinds of the next `n` tokens produced from a lexer state
(`none` if a call panics). -/
def lexKinds : Nat → Lexer → Option (List TokenKind)
  | 0, _ => some []
  | m + 1, l =>
    match Lexer.next_token l with
    | none => none
    | some (t, l') =>
      match lexKinds m l' with
      | none => none
      | some ks => some (t.kind :: ks)

/-- The kinds of the first `n` tokens produced by a fresh lexer on the
given source text (`none` if a call panics). -/
def firstTokens (n : Nat) (s : String) : Option (List TokenKind) :=
  lexKinds n (Lexer.new s)

/-- `Identifier` (`src/ast.rs` line 4): a newtype over the name. -/
structure Identifier where
  name : String
deriving DecidableEq

/-- `Expression` (`src/ast.rs` lines 24-27 defines only `Placeholder`;
the remaining constructors are the ones `src/parser.rs` builds at lines
206-234 — `Expression::Identifier`, `Expression::Integer`,
`Expression::Prefix`, `Expression::Infix` — whose enum declaration is
repo code not under `src/`).  Modelled from the spec (§3 expression
variants) restricted to the variants the parser actually produces. -/
inductive Expression where
  | Placeholder
  | Identifier (ident : Identifier)
  | Integer (value : Int)
  | Prefix (op : TokenKind) (rhs : Expression)
  | Infix (lhs : Expression) (op : TokenKind) (rhs : Expression)
deriving DecidableEq

/-- `Statement` (`src/ast.rs` lines 6-11). -/
inductive Statement where
  | LetStatement (ident : Identifier) (value : Expression)
  | ReturnStatement (value : Expression)
  | ExpressionStatement (value : Expression)
deriving DecidableEq

/-- `Program` (`src/ast.rs` lines 38-48). -/
structure Program where
  statements : List Statement
deriving DecidableEq

/-- `Program::new`. -/
def Program.new : Program := { statements := [] }

/-- `Display` for `Expression`.  `src/ast.rs` renders only
`Placeholder` (as `PLACEHOLDER`); the rendering of the other variants is
repo code not under `src/`.  Modelled from the spec: §4.3 and the golden
strings in the parser tests (`((-a) * b)` style, fully parenthesized). -/
def expressionDisplay : Expression → String
  | Expression.Placeholder => "PLACEHOLDER"
  | Expression.Identifier i => i.name
  | Expression.Integer v => toString v
  | Expression.Prefix op rhs =>
    "(" ++ tokenDisplayString op ++ expressionDisplay rhs ++ ")"
  | Expression.Infix lhs op rhs =>
    "(" ++ expressionDisplay lhs ++ " " ++ tokenDisplayString op ++ " "
      ++ expressionDisplay rhs ++ ")"

/-- `Display` for `Statement` (`src/ast.rs` lines 13-22). -/
def statementDisplay : Statement → String
  | Statement.LetStatement ident value =>
    "let " ++ ident.name ++ " = " ++ expressionDisplay value ++ ";"
  | Statement.ReturnStatement value => "return " ++ expressionDisplay value ++ ";"
  | Statement.ExpressionStatement value => expressionDisplay value

/-- `Object` (`src/object.rs` lines 11-19).  The `Env` in the
`Function` variant comes from the evaluator, which is repo code not
under `src/`; modelled from the spec as the binding list the
environment holds (§3 Environment: a mapping from identifier to
Object). -/
inductive Object where
  | Null
  | Error (message : String)
  | Boolean (b : Bool)
  | Integer (i : Int)
  | ReturnValue (value : Object)
  | Function (params : List Expression) (body : Statement)
      (env : List (Identifier × Object))

/-- `impl Display for Object` (`src/object.rs` lines 49-61): renders
the KIND of the object, not its payload. -/
def Object.displayString : Object → String
  | Object.Null => "NULL"
  | Object.Error _ => "ERROR"
  | Object.Boolean _ => "BOOLEAN"
  | Object.Integer _ => "INTEGER"
  | Object.ReturnValue _ => "RETURN_VALUE"
  | Object.Function _ _ _ => "FUNCTION"

/-- `Object::inspect` (`src/object.rs` lines 22-38).  Note that the
`ReturnValue` arm is `value.to_string()`, which resolves to the
`Display` impl above (the kind string), not to `inspect`. -/
def Object.inspect : Object → String
  | Object.Null => "null"
  | Object.Error message => "ERROR: " ++ message
  | Object.Boolean b => cond b "true" "false"
  | Object.Integer i => toString i
  | Object.ReturnValue value => Object.displayString value
  | Object.Function params body _ =>
    "fn(" ++ String.intercalate ", " (params.map expressionDisplay)
      ++ ") \x7b\n" ++ statementDisplay body ++ "\n\x7d"

/-- `Object::is_truthy` (`src/object.rs` lines 40-42). -/
def Object.is_truthy : Object → Bool
  | Object.Boolean false => false
  | Object.Null => false
  | _ => true

/-- `Object::is_error` (`src/object.rs` lines 44-46). -/
def Object.is_error : Object → Bool
  | Object.Error _ => true
  | _ => false

/-- `Environment` (`src/object.rs` lines 72-75): a single `HashMap`
from `Identifier` to `Object` and nothing else — the struct has no
field for an enclosing environment.  The map is modelled as an
association list whose `get` takes the first match and whose `set`
prepends the new binding, which reproduces `HashMap::get` /
`HashMap::insert` as observed through `get`. -/
structure Environment where
  store : List (Identifier × Object)

/-- First-match association lookup (`HashMap::get`). -/
def assocFind : List (Identifier × Object) → Identifier → Option Object
  | [], _ => none
  | (k, v) :: rest, name => if name = k then some v else assocFind rest name

/-- `Environment::new` (`src/object.rs` lines 78-82). -/
def Environment.new : Environment := { store := [] }

/-- `Environment::get` (`src/object.rs` lines 84-86): looks up the name
in the current frame's map only. -/
def Environment.get (env : Environment) (name : Identifier) : Option Object :=
  assocFind env.store name

/-- `Environment::set` (`src/object.rs` lines 88-90): inserts into the
current frame's map. -/
def Environment.set (env : Environment) (name : Identifier) (value : Object) :
    Environment :=
  { store := (name, value) :: env.store }

/-- Modelled from the spec: §3 describes an Environment as "a mapping
from identifier to Object, plus an optional reference to an enclosing
environment", with `get` walking outward through the chain and
`new_enclosed(parent)` creating a child frame.  This is the spec's
data model, stated for comparison with the source `Environment` above
(which carries no enclosing reference). -/
inductive SpecEnvironment where
  | frame (store : List (Identifier × Object)) (outer : Option SpecEnvironment)

/-- Spec-modelled lookup: current frame first, then the enclosing
chain, `none` once the chain is exhausted. -/
def SpecEnvironment.get : SpecEnvironment → Identifier → Option Object
  | SpecEnvironment.frame store outer, name =>
    match assocFind store name with
    | some v => some v
    | none =>
      match outer with
      | some parent => SpecEnvironment.get parent name
      | none => none

/-- Spec-modelled `Environment::new_enclosed(parent)`: an empty child
frame whose enclosing environment is `parent`. -/
def SpecEnvironment.new_enclosed (parent : SpecEnvironment) : SpecEnvironment :=
  SpecEnvironment.frame [] (some parent)

/-- `Precedence` (`src/parser.rs` lines 7-16), ordered by declaration
order via the derived `PartialOrd`/`Ord`. -/
inductive Precedence where
  | Lowest
  | Equals
  | LessGreater
  | Sum
  | Product
  | Prefix
  | Call
deriving DecidableEq

/-- Rank of a `Precedence` constructor; the derived Rust `Ord` compares
by declaration order. -/
def Precedence.rank : Precedence → Nat
  | Precedence.Lowest => 0
  | Precedence.Equals => 1
  | Precedence.LessGreater => 2
  | Precedence.Sum => 3
  | Precedence.Product => 4
  | Precedence.Prefix => 5
  | Precedence.Call => 6

/-- `impl From<&TokenKind> for Precedence` (`src/parser.rs` lines
18-33). -/
def precedenceOf : TokenKind → Precedence
  | TokenKind.Equal => Precedence.Equals
  | TokenKind.NotEqual => Precedence.Equals
  | TokenKind.LessThan => Precedence.LessGreater
  | TokenKind.GreaterThan => Precedence.LessGreater
  | TokenKind.Plus => Precedence.Sum
  | TokenKind.Minus => Precedence.Sum
  | TokenKind.Slash => Precedence.Product
  | TokenKind.Asterisk => Precedence.Product
  | TokenKind.Lparen => Precedence.Call
  | _ => Precedence.Lowest

/-- `Parser` (`src/parser.rs` lines 35-41). -/
structure Parser where
  lexer : Lexer
  current_token : Token
  peeked_token : Token
  errors : List String
deriving DecidableEq

/-- Outcome of running a piece of the Rust parser:
`ok a p` — normal return of `a` with parser state `p`;
`err e p` — a `Result::Err(e)` propagating with state `p`;
`panicked` — a Rust panic (the lexer's integer-literal `unwrap`, or the
`unimplemented!` arm of the token-to-handler dispatch);
`spin` — out of fuel, i.e. the Rust code is still looping. -/
inductive PStep (α : Type) where
  | ok (a : α) (p : Parser)
  | err (e : String) (p : Parser)
  | panicked
  | spin
deriving DecidableEq

/-- `Parser::next_token` (`src/parser.rs` lines 90-93): the peeked
token becomes current and a fresh token is pulled from the lexer.
`none` models a lexer panic. -/
def Parser.next_token (p : Parser) : Option Parser :=
  match Lexer.next_token p.lexer with
  | none => none
  | some (t, l) =>
    some { p with lexer := l, current_token := p.peeked_token, peeked_token := t }

/-- `Parser::new` (`src/parser.rs` lines 44-55): both lookahead slots
start as `Illegal` and are filled by two pulls. -/
def Parser.new (lexer : Lexer) : Option Parser :=
  let p : Parser :=
    { lexer := lexer
      current_token := Token.new TokenKind.Illegal
      peeked_token := Token.new TokenKind.Illegal
      errors := [] }
  match Parser.next_token p with
  | none => none
  | some p1 =>
    match Parser.next_token p1 with
    | none => none
    | some p2 => some p2

/-- `Parser::current_token_is`. -/
def Parser.current_token_is (p : Parser) (kind : TokenKind) : Bool :=
  p.current_token.kind = kind

/-- `Parser::peek_token_is`. -/
def Parser.peek_token_is (p : Parser) (kind : TokenKind) : Bool :=
  p.peeked_token.kind = kind

/-- `Parser::peek_precedence` (`src/parser.rs` lines 237-240). -/
def Parser.peek_precedence (p : Parser) : Precedence :=
  precedenceOf p.peeked_token.kind

/-- `Parser::current_precedence` (`src/parser.rs` lines 242-245). -/
def Parser.current_precedence (p : Parser) : Precedence :=
  precedenceOf p.current_token.kind

/-- The token kinds with a registered handler at the head of an
expression (`src/parser.rs` lines 183-188). -/
def hasParsePrefixFn (kind : TokenKind) : Bool :=
  match kind with
  | TokenKind.Ident _ | TokenKind.Int _ | TokenKind.Bang | TokenKind.Minus => true
  | _ => false

/-- The token kinds with a registered binary-operator handler
(`src/parser.rs` lines 190-202). -/
def hasParseInfixFn (kind : TokenKind) : Bool :=
  match kind with
  | TokenKind.Plus | TokenKind.Minus | TokenKind.Asterisk | TokenKind.Slash
  | TokenKind.LessThan | TokenKind.GreaterThan
  | TokenKind.Equal | TokenKind.NotEqual => true
  | _ => false

mutual

/-- `Parser::parse_program` (`src/parser.rs` lines 57-68): loop until
the current token is `Eof`, collecting one optional statement per
iteration and advancing once after each. -/
def parse_program : Nat → Parser → PStep Program
  | 0, _ => PStep.spin
  | fuel + 1, p =>
    if p.current_token.kind = TokenKind.Eof then PStep.ok Program.new p
    else
      match parser_statement fuel p with
      | PStep.ok optStmt p1 =>
        match Parser.next_token p1 with
        | none => PStep.panicked
        | some p2 =>
          match parse_program fuel p2 with
          | PStep.ok prog p3 =>
            PStep.ok
              { statements :=
                  match optStmt with
                  | some s => s :: prog.statements
                  | none => prog.statements } p3
          | PStep.err e p3 => PStep.err e p3
          | PStep.panicked => PStep.panicked
          | PStep.spin => PStep.spin
      | PStep.err e p1 => PStep.err e p1
      | PStep.panicked => PStep.panicked
      | PStep.spin => PStep.spin

/-- `Parser::parser_statement` (`src/parser.rs` lines 70-84): dispatch
on the current token; an `Err` from the chosen sub-parser is pushed
onto the error list and yields no statement. -/
def parser_statement : Nat → Parser → PStep (Option Statement)
  | 0, _ => PStep.spin
  | fuel + 1, p =>
    let result :=
      match p.current_token.kind with
      | TokenKind.Let => parse_let_statement fuel p
      | TokenKind.Return => parse_return_statement fuel p
      | _ => parse_expression_statement fuel Precedence.Lowest p
    match result with
    | PStep.ok s p1 => PStep.ok (some s) p1
    | PStep.err e p1 => PStep.ok none { p1 with errors := p1.errors ++ [e] }
    | PStep.panicked => PStep.panicked
    | PStep.spin => PStep.spin

/-- The `while !current_token_is(Semicolon)` recovery scan shared by
the `let` and `return` statement parsers (`src/parser.rs` lines
131-133 and 145-147).  Note it tests ONLY for `Semicolon`, never for
`Eof`. -/
def skipToSemicolon : Nat → Parser → PStep Unit
  | 0, _ => PStep.spin
  | fuel + 1, p =>
    if p.current_token.kind = TokenKind.Semicolon then PStep.ok () p
    else
      match Parser.next_token p with
      | none => PStep.panicked
      | some p1 => skipToSemicolon fuel p1

/-- `Parser::parse_let_statement` (`src/parser.rs` lines 116-139):
require an identifier after `let`, require `=` as the following peek
(without consuming it), then scan to `;`; the value is the
`Placeholder` expression. -/
def parse_let_statement : Nat → Parser → PStep Statement
  | 0, _ => PStep.spin
  | fuel + 1, p =>
    match p.peeked_token.kind with
    | TokenKind.Ident name =>
      match Parser.next_token p with
      | none => PStep.panicked
      | some p1 =>
        if p1.peeked_token.kind ≠ TokenKind.Assign then
          PStep.err
            ("expected TokenKind to be Assign, got "
              ++ tokenDebugString p1.peeked_token.kind) p1
        else
          match skipToSemicolon fuel p1 with
          | PStep.ok _ p2 =>
            PStep.ok
              (Statement.LetStatement { name := name } Expression.Placeholder) p2
          | PStep.err e p2 => PStep.err e p2
          | PStep.panicked => PStep.panicked
          | PStep.spin => PStep.spin
    | k =>
      PStep.err
        ("expected TokenKind to be Identifier(_), got: " ++ tokenDebugString k) p

/-- `Parser::parse_return_statement` (`src/parser.rs` lines 141-150):
advance past `return`, then scan to `;`; the value is the
`Placeholder` expression. -/
def parse_return_statement : Nat → Parser → PStep Statement
  | 0, _ => PStep.spin
  | fuel + 1, p =>
    match Parser.next_token p with
    | none => PStep.panicked
    | some p1 =>
      match skipToSemicolon fuel p1 with
      | PStep.ok _ p2 => PStep.ok (Statement.ReturnStatement Expression.Placeholder) p2
      | PStep.err e p2 => PStep.err e p2
      | PStep.panicked => PStep.panicked
      | PStep.spin => PStep.spin

/-- `Parser::parse_expression_statement` (`src/parser.rs` lines
152-159): parse an expression, then consume an optional trailing
`;`. -/
def parse_expression_statement : Nat → Precedence → Parser → PStep Statement
  | 0, _, _ => PStep.spin
  | fuel + 1, precedence, p =>
    match parse_expression fuel precedence p with
    | PStep.ok e p1 =>
      if p1.peeked_token.kind = TokenKind.Semicolon then
        match Parser.next_token p1 with
        | none => PStep.panicked
        | some p2 => PStep.ok (Statement.ExpressionStatement e) p2
      else PStep.ok (Statement.ExpressionStatement e) p1
    | PStep.err e p1 => PStep.err e p1
    | PStep.panicked => PStep.panicked
    | PStep.spin => PStep.spin

/-- `Parser::parse_expression` (`src/parser.rs` lines 161-181): a
missing head handler is a hard error; otherwise parse the head, then
run the climbing loop. -/
def parse_expression : Nat → Precedence → Parser → PStep Expression
  | 0, _, _ => PStep.spin
  | fuel + 1, precedence, p =>
    if hasParsePrefixFn p.current_token.kind = false then
      PStep.err ("Expected a prefix. Got: " ++ tokenDisplayString p.current_token.kind) p
    else
      match parsePrefixFn fuel p with
      | PStep.ok e p1 => parseExpressionLoop fuel precedence e p1
      | PStep.err e p1 => PStep.err e p1
      | PStep.panicked => PStep.panicked
      | PStep.spin => PStep.spin

/-- The `while !peek_token_is(Semicolon) && precedence <
peek_precedence` loop of `Parser::parse_expression` (`src/parser.rs`
lines 171-178).  The comparison is the strict `<` of the derived
`Ord`. -/
def parseExpressionLoop : Nat → Precedence → Expression → Parser → PStep Expression
  | 0, _, _, _ => PStep.spin
  | fuel + 1, precedence, e, p =>
    if p.peeked_token.kind ≠ TokenKind.Semicolon
        ∧ precedence.rank < (Parser.peek_precedence p).rank then
      if hasParseInfixFn p.peeked_token.kind = false then PStep.ok e p
      else
        match Parser.next_token p with
        | none => PStep.panicked
        | some p1 =>
          match parseInfixFn fuel e p1 with
          | PStep.ok e1 p2 => parseExpressionLoop fuel precedence e1 p2
          | PStep.err e1 p2 => PStep.err e1 p2
          | PStep.panicked => PStep.panicked
          | PStep.spin => PStep.spin
    else PStep.ok e p

/-- `Parser::parse_prefix` (`src/parser.rs` lines 204-226): literal
and unary-operator head handlers; the wildcard arm is
`unimplemented!()`, i.e. a panic (unreachable behind the handler
check). -/
def parsePrefixFn : Nat → Parser → PStep Expression
  | 0, _ => PStep.spin
  | fuel + 1, p =>
    match p.current_token.kind with
    | TokenKind.Ident value => PStep.ok (Expression.Identifier { name := value }) p
    | TokenKind.Int value => PStep.ok (Expression.Integer value) p
    | TokenKind.Minus =>
      match Parser.next_token p with
      | none => PStep.panicked
      | some p1 =>
        match parse_expression fuel Precedence.Prefix p1 with
        | PStep.ok e p2 => PStep.ok (Expression.Prefix TokenKind.Minus e) p2
        | PStep.err e p2 => PStep.err e p2
        | PStep.panicked => PStep.panicked
        | PStep.spin => PStep.spin
    | TokenKind.Bang =>
      match Parser.next_token p with
      | none => PStep.panicked
      | some p1 =>
        match parse_expression fuel Precedence.Prefix p1 with
        | PStep.ok e p2 => PStep.ok (Expression.Prefix TokenKind.Bang e) p2
        | PStep.err e p2 => PStep.err e p2
        | PStep.panicked => PStep.panicked
        | PStep.spin => PStep.spin
    | _ => PStep.panicked

/-- `Parser::parse_infix` (`src/parser.rs` lines 228-235): remember
the operator and ITS precedence, advance, parse the right operand with
that precedence, and build a left-nested tree. -/
def parseInfixFn : Nat → Expression → Parser → PStep Expression
  | 0, _, _ => PStep.spin
  | fuel + 1, left, p =>
    let token := p.current_token.kind
    let precedence := Parser.current_precedence p
    match Parser.next_token p with
    | none => PStep.panicked
    | some p1 =>
      match parse_expression fuel precedence p1 with
      | PStep.ok right p2 => PStep.ok (Expression.Infix left token right) p2
      | PStep.err e p2 => PStep.err e p2
      | PStep.panicked => PStep.panicked
      | PStep.spin => PStep.spin

end

/-- Run the parser on source text with the given fuel, mirroring
`Parser::new(Lexer::new(input))` followed by `parse_program`. -/
def parseString (fuel : Nat) (input : String) : PStep Program :=
  match Parser.new (Lexer.new input) with
  | none => PStep.panicked
  | some p => parse_program fuel p

/-- The statements and accumulated error list of a parse that returned
normally (`none` for a panic or a parse that is still running). -/
def parseResult (fuel : Nat) (input : String) :
    Option (List Statement × List String) :=
  match parseString fuel input with
  | PStep.ok prog p => some (prog.statements, p.errors)
  | _ => none

/-- Well-formedness of a lexer state: the single-character lookahead
cursor is one past `position`, and `character` is the byte at
`position` (the `0` sentinel past the end).  `Lexer::new` establishes
this and `read_char` preserves it. -/
def LexerWf (l : Lexer) : Prop :=
  l.read_position = l.position + 1 ∧ l.character = l.input.getD l.position nul

instance (l : Lexer) : Decidable (LexerWf l) := by
  unfold LexerWf; infer_instance

/-- The token kinds that carry a registered binary-operator handler,
exactly the operator set of the precedence table. -/
def infixOperators : List TokenKind :=
  [TokenKind.Plus, TokenKind.Minus, TokenKind.Asterisk, TokenKind.Slash,
   TokenKind.LessThan, TokenKind.GreaterThan, TokenKind.Equal, TokenKind.NotEqual]

/-- Source text `a <op1> b <op2> c` for two binary operators, written
with the operator lexemes. -/
def tieInput (k1 k2 : TokenKind) : String :=
  "a " ++ tokenDisplayString k1 ++ " b " ++ tokenDisplayString k2 ++ " c"

/-- The left-associated tree `((a k1 b) k2 c)` as a statement. -/
def tieLeftStatement (k1 k2 : TokenKind) : Statement :=
  Statement.ExpressionStatement
    (Expression.Infix
      (Expression.Infix (Expression.Identifier { name := "a" }) k1
        (Expression.Identifier { name := "b" }))
      k2 (Expression.Identifier { name := "c" }))

/-- The right-associated tree `(a k1 (b k2 c))` as a statement. -/
def tieRightStatement (k1 k2 : TokenKind) : Statement :=
  Statement.ExpressionStatement
    (Expression.Infix (Expression.Identifier { name := "a" }) k1
      (Expression.Infix (Expression.Identifier { name := "b" }) k2
        (Expression.Identifier { name := "c" })))

/-- The parser state `Parser::new` produces on input `let x = 5` (no
terminating semicolon): `let` current, `x` peeked. -/
def letNoSemiStart : Parser :=
  { lexer :=
      { input := "let x = 5".toList, position := 5, read_position := 6,
        character := ' ' }
    current_token := Token.new TokenKind.Let
    peeked_token := Token.new (TokenKind.Ident "x")
    errors := [] }

/-- The parser state reached on input `let x = 5` (no terminating
semicolon) when the recovery scan of the `let` parser is entered:
`=` has been accepted as the peeked token. -/
def letNoSemiSkipEntry : Parser :=
  { lexer :=
      { input := "let x = 5".toList, position := 7, read_position := 8,
        character := ' ' }
    current_token := Token.new (TokenKind.Ident "x")
    peeked_token := Token.new TokenKind.Assign
    errors := [] }

/-- The parser state one recovery-scan iteration later: the lexer has
consumed the whole input (`character` is the end sentinel and the read
cursor is past the end), and neither lookahead slot holds `;`. -/
def letNoSemiSkipStuck : Parser :=
  { lexer :=
      { input := "let x = 5".toList, position := 9, read_position := 10,
        character := nul }
    current_token := Token.new TokenKind.Assign
    peeked_token := Token.new (TokenKind.Int 5)
    errors := [] }

/-! ### Supporting lemmas -/

theorem is_letter_nul : is_letter nul = false := by decide

theorem letter_not_ws {c : Char} (h : is_letter c = true) :
    isAsciiWhitespace c = false := by
  cases hws : isAsciiWhitespace c
  · rfl
  · exfalso
    simp only [isAsciiWhitespace, Bool.or_eq_true, decide_eq_true_eq] at hws
    rcases hws with ((((h1 | h2) | h3) | h4) | h5) <;> subst_vars <;>
      exact absurd h (by decide)

theorem letter_ne {c d : Char} (h : is_letter c = true)
    (hd : is_letter d = false) : c ≠ d := by
  intro he
  rw [he] at h
  simp [h] at hd

theorem skipWsLoop_noop (fuel : Nat) (l : Lexer)
    (h : isAsciiWhitespace l.character = false) :
    Lexer.skipWsLoop fuel l = l := by
  cases fuel <;> simp [Lexer.skipWsLoop, h]

theorem skip_whitespace_noop (l : Lexer)
    (h : isAsciiWhitespace l.character = false) :
    Lexer.skip_whitespace l = l :=
  skipWsLoop_noop _ _ h

theorem read_char_wf (l : Lexer) : LexerWf (Lexer.read_char l) := by
  refine ⟨rfl, ?_⟩
  show (if l.input.length ≤ l.read_position then nul
      else l.input.getD l.read_position nul) = l.input.getD l.read_position nul
  by_cases h : l.input.length ≤ l.read_position
  · rw [if_pos h, List.getD_eq_default _ _ h]
  · rw [if_neg h]

theorem new_wf (s : String) : LexerWf (Lexer.new s) := read_char_wf _

theorem letter_pos_lt (l : Lexer) (hwf : LexerWf l)
    (hl : is_letter l.character = true) : l.position < l.input.length := by
  by_contra h
  push_neg at h
  rw [hwf.2, List.getD_eq_default _ _ h] at hl
  exact absurd hl (by decide)

theorem lexer_eta (l : Lexer) (hwf : LexerWf l) :
    l = { input := l.input, position := l.position,
          read_position := l.position + 1,
          character := l.input.getD l.position nul } := by
  obtain ⟨h1, h2⟩ := hwf
  cases l
  simp only at h1 h2 ⊢
  rw [h1, h2]

theorem readIdentLoop_spec (fuel : Nat) :
    ∀ l : Lexer, LexerWf l → l.input.length + 1 - l.position ≤ fuel →
    Lexer.readIdentLoop fuel l =
      { input := l.input
        position := l.position + ((l.input.drop l.position).takeWhile is_letter).length
        read_position :=
          l.position + ((l.input.drop l.position).takeWhile is_letter).length + 1
        character := l.input.getD
          (l.position + ((l.input.drop l.position).takeWhile is_letter).length)
          nul } := by
  induction fuel with
  | zero =>
    intro l hwf hle
    have hp : l.input.length ≤ l.position := by omega
    rw [List.drop_eq_nil_of_le hp]
    simp only [List.takeWhile_nil, List.length_nil, Nat.add_zero]
    rw [show Lexer.readIdentLoop 0 l = l from rfl]
    exact lexer_eta l hwf
  | succ f ih =>
    intro l hwf hle
    by_cases hl : is_letter l.character = true
    · have hlt := letter_pos_lt l hwf hl
      have hchar : l.character = l.input[l.position] := by
        rw [hwf.2, List.getD_eq_getElem _ _ hlt]
      have hdrop := List.drop_eq_getElem_cons hlt
      have htw : (l.input.drop l.position).takeWhile is_letter =
          l.input[l.position] :: ((l.input.drop (l.position + 1)).takeWhile is_letter) := by
        rw [hdrop, List.takeWhile_cons, if_pos (by rw [← hchar]; exact hl)]
      have hstep : Lexer.readIdentLoop (f + 1) l =
          Lexer.readIdentLoop f (Lexer.read_char l) := by
        rw [show Lexer.readIdentLoop (f + 1) l =
          (if is_letter l.character = true then
            Lexer.readIdentLoop f (Lexer.read_char l) else l) from rfl,
          if_pos hl]
      have hrcfields : (Lexer.read_char l).input = l.input ∧
          (Lexer.read_char l).position = l.position + 1 := by
        simp [Lexer.read_char, hwf.1]
      have hbound : (Lexer.read_char l).input.length + 1
          - (Lexer.read_char l).position ≤ f := by
        rw [hrcfields.1, hrcfields.2]
        omega
      rw [hstep, ih (Lexer.read_char l) (read_char_wf l) hbound,
        hrcfields.1, hrcfields.2, htw]
      rw [List.length_cons]
      set n := ((l.input.drop (l.position + 1)).takeWhile is_letter).length with hn
      rw [show l.position + (n + 1) = l.position + 1 + n from by omega]
    · have hl' : is_letter l.character = false := by
        cases h : is_letter l.character
        · rfl
        · exact absurd h hl
      have htw : (l.input.drop l.position).takeWhile is_letter = [] := by
        by_cases hp : l.position < l.input.length
        · rw [List.drop_eq_getElem_cons hp, List.takeWhile_cons, if_neg]
          rw [← List.getD_eq_getElem _ nul hp, ← hwf.2]
          simp [hl']
        · rw [List.drop_eq_nil_of_le (Nat.le_of_not_lt hp)]
          rfl
      rw [htw]
      simp only [List.length_nil, Nat.add_zero]
      rw [show Lexer.readIdentLoop (f + 1) l =
          (if is_letter l.character = true then
            Lexer.readIdentLoop f (Lexer.read_char l) else l) from rfl,
        if_neg hl]
      exact lexer_eta l hwf

theorem read_identifier_run (l : Lexer) (hwf : LexerWf l) :
    (Lexer.read_identifier l).1 =
      String.mk ((l.input.drop l.position).takeWhile is_letter) := by
  have hspec := readIdentLoop_spec (l.input.length + 2) l hwf (by omega)
  simp only [Lexer.read_identifier, hspec]
  rw [show l.position + ((l.input.drop l.position).takeWhile is_letter).length
      - l.position = ((l.input.drop l.position).takeWhile is_letter).length
    from by omega]
  congr 1
  exact (List.prefix_iff_eq_take.mp (List.takeWhile_prefix _)).symm

/-! ### Claim theorems -/

/-- C3 counterexample: the spec's environment model resolves `x`
through the enclosing chain from an enclosed child created by
`new_enclosed`, but a source `Environment` consists of nothing but its
own frame, and with an empty current frame its `get` is `none` — the
source type has no enclosing chain and no `new_enclosed`
constructor. -/
theorem environment_cannot_resolve_through_enclosing :
    SpecEnvironment.get
        (SpecEnvironment.new_enclosed
          (SpecEnvironment.frame [({ name := "x" }, Object.Integer 1)] none))
        { name := "x" } = some (Object.Integer 1)
      ∧ Environment.get { store := [] } { name := "x" } = none :=
  ⟨rfl, rfl⟩

/-- C3 amended: `Environment` is a single flat frame.  `get` returns
the binding held in the current frame's map (`none` when the name is
unbound), and `set` writes the binding into the current frame's map,
leaving every other name's binding unchanged. -/
theorem environment_single_frame_get_set :
    ∀ (e : Environment) (n m : Identifier) (v : Object),
      Environment.get Environment.new n = none
        ∧ Environment.get (Environment.set e n v) n = some v
        ∧ (m ≠ n → Environment.get (Environment.set e n v) m = Environment.get e m) := by
  intro e n m v
  refine ⟨rfl, ?_, ?_⟩
  · simp [Environment.get, Environment.set, assocFind]
  · intro h
    simp [Environment.get, Environment.set, assocFind, h]

/-- Witness for the amended C3 theorem at a concrete frame, name and
value. -/
theorem environment_single_frame_get_set_witness :
    Environment.get
        (Environment.set { store := [] } { name := "a" } Object.Null)
        { name := "b" }
      = Environment.get ({ store := [] } : Environment) { name := "b" } :=
  (environment_single_frame_get_set { store := [] } { name := "a" }
    { name := "b" } Object.Null).2.2 (by decide)

/-- C5: `inspect` on a `ReturnValue` wrapper yields the `Display`
rendering of the wrapped value — its KIND string (`"INTEGER"`), not
the wrapped value's own inspection (`"5"`); the `Error` variant does
render as `ERROR: <message>`. -/
theorem inspect_return_value_renders_kind :
    Object.inspect (Object.ReturnValue (Object.Integer 5)) = "INTEGER"
      ∧ Object.inspect (Object.Integer 5) = "5"
      ∧ Object.inspect (Object.ReturnValue (Object.Integer 5))
          ≠ Object.inspect (Object.Integer 5)
      ∧ Object.inspect (Object.Error "boom") = "ERROR: boom" :=
  ⟨rfl, by decide, by decide, rfl⟩

/-- C6: tokenizing a decimal literal one past `i64::MAX` panics (the
`unwrap` inside `read_number`), modelled as `none`; the boundary value
`i64::MAX` itself is produced exactly, with no wrapping. -/
theorem read_number_overflow_panics :
    firstTokens 1 "9223372036854775808" = none
      ∧ firstTokens 2 "9223372036854775807" =
          some [TokenKind.Int 9223372036854775807, TokenKind.Eof] := by
  decide

/-- C9: `is_truthy` is `false` exactly on `Boolean false` and `Null`,
and in particular `Integer 0` is truthy. -/
theorem is_truthy_false_iff_false_or_null :
    ∀ o : Object,
      (Object.is_truthy o = false ↔ (o = Object.Boolean false ∨ o = Object.Null))
        ∧ Object.is_truthy (Object.Integer 0) = true := by
  intro o
  refine ⟨?_, rfl⟩
  cases o with
  | Null => simp [Object.is_truthy]
  | Error m => simp [Object.is_truthy]
  | Boolean b => cases b <;> simp [Object.is_truthy]
  | Integer i => simp [Object.is_truthy]
  | ReturnValue v => simp [Object.is_truthy]
  | Function p b e => simp [Object.is_truthy]

/-- C7 counterexample: `x1` does not tokenize as the single identifier
`x1`; the identifier run stops at the digit, yielding `Ident "x"`
followed by `Int 1`. -/
theorem lexer_splits_x1_into_ident_and_int :
    firstTokens 3 "x1" =
        some [TokenKind.Ident "x", TokenKind.Int 1, TokenKind.Eof]
      ∧ firstTokens 2 "x1" ≠ some [TokenKind.Ident "x1", TokenKind.Eof] := by
  decide

/-- C7 amended: from a letter or underscore, `next_token` consumes the
maximal run of letters and underscores only (digits are excluded by
`is_letter`) and resolves that exact run through the keyword table. -/
theorem identifier_run_letters_underscores_only :
    ∀ l : Lexer, LexerWf l → is_letter l.character = true →
      Lexer.next_token l =
        some (Token.new (TokenKind.from_letters
            (String.mk ((l.input.drop l.position).takeWhile is_letter))),
          (Lexer.read_identifier l).2) := by
  intro l hwf hl
  have hws := letter_not_ws hl
  have hskip : Lexer.skip_whitespace l = l := skip_whitespace_noop l hws
  have h0 : l.character ≠ nul := letter_ne hl (by decide)
  have h1 : l.character ≠ '+' := letter_ne hl (by decide)
  have h2 : l.character ≠ '-' := letter_ne hl (by decide)
  have h3 : l.character ≠ '*' := letter_ne hl (by decide)
  have h4 : l.character ≠ '/' := letter_ne hl (by decide)
  have h5 : l.character ≠ '<' := letter_ne hl (by decide)
  have h6 : l.character ≠ '>' := letter_ne hl (by decide)
  have h7 : l.character ≠ ',' := letter_ne hl (by decide)
  have h8 : l.character ≠ ':' := letter_ne hl (by decide)
  have h9 : l.character ≠ ';' := letter_ne hl (by decide)
  have h10 : l.character ≠ '(' := letter_ne hl (by decide)
  have h11 : l.character ≠ ')' := letter_ne hl (by decide)
  have h12 : l.character ≠ '[' := letter_ne hl (by decide)
  have h13 : l.character ≠ ']' := letter_ne hl (by decide)
  have h14 : l.character ≠ Char.ofNat 123 := letter_ne hl (by decide)
  have h15 : l.character ≠ Char.ofNat 125 := letter_ne hl (by decide)
  have h16 : l.character ≠ '=' := letter_ne hl (by decide)
  have h17 : l.character ≠ '!' := letter_ne hl (by decide)
  have h18 : l.character ≠ '"' := letter_ne hl (by decide)
  simp only [Lexer.next_token, hskip, h0, h1, h2, h3, h4, h5, h6, h7, h8, h9,
    h10, h11, h12, h13, h14, h15, h16, h17, h18, hl, if_false, if_true,
    ite_true, ite_false, if_neg, if_pos]
  rw [read_identifier_run l hwf]

/-- Witness for the amended C7 theorem at the fresh lexer on `x1`. -/
theorem identifier_run_letters_underscores_only_witness :
    LexerWf (Lexer.new "x1")
      ∧ is_letter (Lexer.new "x1").character = true
      ∧ Lexer.next_token (Lexer.new "x1") =
          some (Token.new (TokenKind.from_letters
              (String.mk (((Lexer.new "x1").input.drop
                (Lexer.new "x1").position).takeWhile is_letter))),
            (Lexer.read_identifier (Lexer.new "x1")).2) :=
  ⟨by decide, by decide,
    identifier_run_letters_underscores_only (Lexer.new "x1") (by decide) (by decide)⟩

/-- C8 counterexample: on the input `"\x00x"` the first call returns
`Eof` (the NUL byte is the lexer's end sentinel) but the next call
returns `Ident "x"`, so `Eof` is not a terminal state for every
input. -/
theorem eof_not_terminal_on_nul_byte :
    firstTokens 3 "\x00x" =
        some [TokenKind.Eof, TokenKind.Ident "x", TokenKind.Eof]
      ∧ firstTokens 2 "\x00x" ≠ some [TokenKind.Eof, TokenKind.Eof] := by
  decide

/-- C8 amended: once the read cursor is at or past end-of-input,
`next_token` returns `Eof` and the successor state again satisfies the
same invariant — so every subsequent call also returns `Eof`.  (An
`Eof` produced by a NUL byte inside the input does not satisfy this
invariant, see the counterexample.) -/
theorem eof_terminal_at_end_of_input :
    ∀ l : Lexer, LexerWf l → l.input.length ≤ l.position →
      Lexer.next_token l = some (Token.new TokenKind.Eof, Lexer.read_char l)
        ∧ LexerWf (Lexer.read_char l)
        ∧ l.input.length ≤ (Lexer.read_char l).position := by
  intro l hwf hend
  have hchar : l.character = nul := by
    rw [hwf.2, List.getD_eq_default _ _ hend]
  have hws : isAsciiWhitespace l.character = false := by
    rw [hchar]; decide
  refine ⟨?_, read_char_wf l, ?_⟩
  · simp [Lexer.next_token, skip_whitespace_noop l hws, hchar]
  · show l.input.length ≤ l.read_position
    rw [hwf.1]
    omega

/-- Witness for the amended C8 theorem at the fresh lexer on the empty
input. -/
theorem eof_terminal_at_end_of_input_witness :
    LexerWf (Lexer.new "")
      ∧ (Lexer.new "").input.length ≤ (Lexer.new "").position
      ∧ (Lexer.next_token (Lexer.new "") =
            some (Token.new TokenKind.Eof, Lexer.read_char (Lexer.new ""))
          ∧ LexerWf (Lexer.read_char (Lexer.new ""))
          ∧ (Lexer.new "").input.length ≤ (Lexer.read_char (Lexer.new "")).position) :=
  ⟨by decide, by decide, eof_terminal_at_end_of_input (Lexer.new "") (by decide) (by decide)⟩

/-- C10: on a byte that is not whitespace, not the end sentinel, not
recognized punctuation, not `"`, not a letter or underscore, and not a
digit, `next_token` returns `Illegal` with the lexer state completely
unchanged — so every subsequent call returns `Illegal` again and `Eof`
is never reached. -/
theorem illegal_byte_self_loop :
    ∀ l : Lexer,
      isAsciiWhitespace l.character = false →
      l.character ≠ nul →
      l.character ≠ '+' → l.character ≠ '-' → l.character ≠ '*' →
      l.character ≠ '/' → l.character ≠ '<' → l.character ≠ '>' →
      l.character ≠ ',' → l.character ≠ ':' → l.character ≠ ';' →
      l.character ≠ '(' → l.character ≠ ')' → l.character ≠ '[' →
      l.character ≠ ']' → l.character ≠ Char.ofNat 123 →
      l.character ≠ Char.ofNat 125 → l.character ≠ '=' →
      l.character ≠ '!' → l.character ≠ '"' →
      is_letter l.character = false → is_number l.character = false →
      Lexer.next_token l = some (Token.new TokenKind.Illegal, l) := by
  intro l hws h0 h1 h2 h3 h4 h5 h6 h7 h8 h9 h10 h11 h12 h13 h14 h15 h16 h17
    h18 hlet hnum
  simp only [Lexer.next_token, skip_whitespace_noop l hws, h0, h1, h2, h3, h4,
    h5, h6, h7, h8, h9, h10, h11, h12, h13, h14, h15, h16, h17, h18, hlet,
    hnum, if_false, ite_false, Bool.false_eq_true, if_neg]

/-- C2 counterexample: on `let = 5; let y = 10;` — one malformed `let`
(no identifier after `let`) followed by a well-formed statement — the
parser accumulates TWO error messages, not exactly one: the `let`
error itself, and a no-head-handler error produced when the
unconsumed `= 5 ;` is re-parsed as an expression statement. -/
theorem parse_errors_not_single_on_malformed_let :
    (parseResult 99 "let = 5; let y = 10;").map (fun r => r.2.length) ≠ some 1
      ∧ (parseResult 99 "let = 5; let y = 10;").map (fun r => r.2.length) = some 2 := by
  decide

/-- C2 amended: a malformed `let` appends one descriptive error for the
`let` itself, after which its remaining tokens are re-parsed as
expression statements — possibly adding further errors and spurious
statements (here the error for `=` and the statement `5`) — and every
subsequent well-formed statement still appears in the returned
Program (here `let y = ...`). -/
theorem malformed_let_two_errors_and_later_statement_kept :
    parseResult 99 "let = 5; let y = 10;" =
      some ([Statement.ExpressionStatement (Expression.Integer 5),
             Statement.LetStatement { name := "y" } Expression.Placeholder],
            ["expected TokenKind to be Identifier(_), got: Assign",
             "Expected a prefix. Got: ="]) := by
  decide

/-- C4: for every pair of equal-precedence binary operators the chain
`a op1 b op2 c` parses to the left-associated tree and never the
right-associated one, and the mixed-precedence examples nest by the
table: `a + b * c` as `(a + (b * c))`, `-a * b` as `((-a) * b)`, and
`!-a` as `(!(-a))`. -/
theorem infix_ties_left_assoc_and_precedence_examples :
    (∀ k1 ∈ infixOperators, ∀ k2 ∈ infixOperators,
        precedenceOf k1 = precedenceOf k2 →
          parseResult 64 (tieInput k1 k2) = some ([tieLeftStatement k1 k2], [])
            ∧ parseResult 64 (tieInput k1 k2) ≠ some ([tieRightStatement k1 k2], []))
      ∧ parseResult 64 "a + b * c" =
          some ([Statement.ExpressionStatement
            (Expression.Infix (Expression.Identifier { name := "a" })
              TokenKind.Plus
              (Expression.Infix (Expression.Identifier { name := "b" })
                TokenKind.Asterisk (Expression.Identifier { name := "c" })))], [])
      ∧ parseResult 64 "-a * b" =
          some ([Statement.ExpressionStatement
            (Expression.Infix
              (Expression.Prefix TokenKind.Minus
                (Expression.Identifier { name := "a" }))
              TokenKind.Asterisk (Expression.Identifier { name := "b" }))], [])
      ∧ parseResult 64 "!-a" =
          some ([Statement.ExpressionStatement
            (Expression.Prefix TokenKind.Bang
              (Expression.Prefix TokenKind.Minus
                (Expression.Identifier { name := "a" })))], []) := by
  decide

/-- Witness for the C4 theorem at the operator pair `+`, `-`. -/
theorem infix_ties_left_assoc_witness :
    TokenKind.Plus ∈ infixOperators
      ∧ TokenKind.Minus ∈ infixOperators
      ∧ precedenceOf TokenKind.Plus = precedenceOf TokenKind.Minus
      ∧ (parseResult 64 (tieInput TokenKind.Plus TokenKind.Minus) =
            some ([tieLeftStatement TokenKind.Plus TokenKind.Minus], [])
          ∧ parseResult 64 (tieInput TokenKind.Plus TokenKind.Minus) ≠
            some ([tieRightStatement TokenKind.Plus TokenKind.Minus], [])) :=
  ⟨by decide, by decide, by decide,
    infix_ties_left_assoc_and_precedence_examples.1 TokenKind.Plus (by decide)
      TokenKind.Minus (by decide) (by decide)⟩

/-- Witness for the C10 theorem at the fresh lexer on `@`. -/
theorem illegal_byte_self_loop_witness :
    Lexer.next_token (Lexer.new "@") =
      some (Token.new TokenKind.Illegal, Lexer.new "@") :=
  illegal_byte_self_loop (Lexer.new "@") (by decide) (by decide) (by decide)
    (by decide) (by decide) (by decide) (by decide) (by decide) (by decide)
    (by decide) (by decide) (by decide) (by decide) (by decide) (by decide)
    (by decide) (by decide) (by decide) (by decide) (by decide) (by decide)
    (by decide)

/-- A lexer whose cursor is past the end with the `0` sentinel loaded
emits `Eof` and stays in such a state. -/
theorem lexer_end_next (l : Lexer) (hc : l.character = nul)
    (he : l.input.length ≤ l.read_position) :
    Lexer.next_token l = some (Token.new TokenKind.Eof, Lexer.read_char l)
      ∧ (Lexer.read_char l).character = nul
      ∧ l.input.length ≤ (Lexer.read_char l).read_position := by
  have hws : isAsciiWhitespace l.character = false := by
    rw [hc]; decide
  refine ⟨?_, ?_, ?_⟩
  · simp [Lexer.next_token, skip_whitespace_noop l hws, hc]
  · show (if l.input.length ≤ l.read_position then nul
      else l.input.getD l.read_position nul) = nul
    rw [if_pos he]
  · show l.input.length ≤ l.read_position + 1
    omega

/-- Once the token source is exhausted and neither lookahead slot holds
`;`, the recovery scan of the statement parsers runs forever: the
lexer keeps producing `Eof`, which is never `;`. -/
theorem skip_to_semicolon_spins :
    ∀ (fuel : Nat) (p : Parser),
      p.current_token.kind ≠ TokenKind.Semicolon →
      p.peeked_token.kind ≠ TokenKind.Semicolon →
      p.lexer.character = nul →
      p.lexer.input.length ≤ p.lexer.read_position →
      skipToSemicolon fuel p = PStep.spin := by
  intro fuel
  induction fuel with
  | zero => intro p _ _ _ _; rfl
  | succ f ih =>
    intro p h1 h2 hc he
    obtain ⟨hnt, hc', he'⟩ := lexer_end_next p.lexer hc he
    rw [show skipToSemicolon (f + 1) p =
        (if p.current_token.kind = TokenKind.Semicolon then PStep.ok () p
         else
           match Parser.next_token p with
           | none => PStep.panicked
           | some p1 => skipToSemicolon f p1) from rfl,
      if_neg h1,
      show Parser.next_token p =
        some { p with lexer := Lexer.read_char p.lexer,
                      current_token := p.peeked_token,
                      peeked_token := Token.new TokenKind.Eof } from by
          simp [Parser.next_token, hnt]]
    exact ih _ h2
      (by show (Token.new TokenKind.Eof).kind ≠ TokenKind.Semicolon; decide)
      hc' he'

/-- One concrete iteration of the recovery scan on `let x = 5` lands in
the exhausted-lexer state. -/
theorem let_no_semicolon_scan_spins :
    ∀ fuel : Nat, skipToSemicolon fuel letNoSemiSkipEntry = PStep.spin := by
  intro fuel
  cases fuel with
  | zero => rfl
  | succ f =>
    rw [show skipToSemicolon (f + 1) letNoSemiSkipEntry =
        skipToSemicolon f letNoSemiSkipStuck from rfl]
    exact skip_to_semicolon_spins f letNoSemiSkipStuck (by decide) (by decide)
      rfl (by decide)

/-- The `let` statement parser never returns on `let x = 5`. -/
theorem let_no_semicolon_let_parser_spins :
    ∀ fuel : Nat, parse_let_statement fuel letNoSemiStart = PStep.spin := by
  intro fuel
  cases fuel with
  | zero => rfl
  | succ f =>
    rw [show parse_let_statement (f + 1) letNoSemiStart =
        (match skipToSemicolon f letNoSemiSkipEntry with
         | PStep.ok _ p2 =>
           PStep.ok
             (Statement.LetStatement { name := "x" } Expression.Placeholder) p2
         | PStep.err e p2 => PStep.err e p2
         | PStep.panicked => PStep.panicked
         | PStep.spin => PStep.spin) from rfl,
      let_no_semicolon_scan_spins f]

/-- Statement dispatch on `let x = 5` never returns. -/
theorem let_no_semicolon_statement_spins :
    ∀ fuel : Nat, parser_statement fuel letNoSemiStart = PStep.spin := by
  intro fuel
  cases fuel with
  | zero => rfl
  | succ f =>
    rw [show parser_statement (f + 1) letNoSemiStart =
        (match parse_let_statement f letNoSemiStart with
         | PStep.ok s p1 => PStep.ok (some s) p1
         | PStep.err e p1 => PStep.ok none { p1 with errors := p1.errors ++ [e] }
         | PStep.panicked => PStep.panicked
         | PStep.spin => PStep.spin) from rfl,
      let_no_semicolon_let_parser_spins f]

/-- C1: on the input `let x = 5` — a `let` statement not followed by a
`;` before end-of-input — the parser never returns, for every fuel
bound: the recovery scan of `parse_let_statement` tests only for `;`
while the exhausted lexer yields `Eof` forever, so `parse_program`
loops instead of returning a Program and its error list. -/
theorem parse_program_spins_on_let_without_semicolon :
    ∀ fuel : Nat, parseString fuel "let x = 5" = PStep.spin := by
  intro fuel
  have heq : parseString fuel "let x = 5" = parse_program fuel letNoSemiStart := rfl
  rw [heq]
  cases fuel with
  | zero => rfl
  | succ f =>
    rw [show parse_program (f + 1) letNoSemiStart =
        (match parser_statement f letNoSemiStart with
         | PStep.ok optStmt p1 =>
           match Parser.next_token p1 with
           | none => PStep.panicked
           | some p2 =>
             match parse_program f p2 with
             | PStep.ok prog p3 =>
               PStep.ok
                 { statements :=
                     match optStmt with
                     | some s => s :: prog.statements
                     | none => prog.statements } p3
             | PStep.err e p3 => PStep.err e p3
             | PStep.panicked => PStep.panicked
             | PStep.spin => PStep.spin
         | PStep.err e p1 => PStep.err e p1
         | PStep.panicked => PStep.panicked
         | PStep.spin => PStep.spin) from rfl,
      let_no_semicolon_statement_spins f]

end Monkey
